import Mathlib

/-!
Verification of the vector retrieval and caching engine of the
ProyectoSistemaDeRecomendacion repository.

The development shallowly embeds the Python sources of the repository:

* `backend/faiss_index.py` (`FAISSIndex`: `create_index`, `search`,
  `batch_search` and the internal-index to movie-id translation loop);
* `backend/qdrant_service.py` (`QdrantService`: filter construction in
  `search_similar`, `insert_movies` / `save_user_embedding` insertion paths);
* `backend/api_ml32m_vectorial.py` (`recommend`, `update_user`,
  `create_initial_user_embedding`);
* `backend/api.py` (`recommend_fast`);
* `backend/database.py` (`MovieLensDatabase.update_user_rating`);
* `backend/embedding_exporter.py` (`EmbeddingExporter.extract_item_embeddings`).

Floating-point vector components are embedded as rational numbers; the
exact brute-force ranking performed by the flat FAISS index and by the
external Qdrant server is modelled as sorting candidates by descending
dot-product score with ties broken by ascending internal index.  Parts of
the specified engine that the repository delegates to external services
(the generation-based `EmbeddingCache`, the server-side filter matching)
are modelled from the specification and marked as such in their doc
comments.
-/

/-- A vector of (floating-point, embedded as rational) components. -/
abbrev Vec := List ℚ

/-- Dot product of two vectors, the similarity score used by the flat
inner-product FAISS index and the cosine scoring of normalized vectors. -/
def dotQ (v w : Vec) : ℚ := (List.zipWith (· * ·) v w).sum

/-- Squared Euclidean norm of a vector. -/
def normSq (v : Vec) : ℚ := dotQ v v

/-- Ranking order used to model exact nearest-neighbour retrieval:
`a` precedes `b` when `a` has the strictly larger score, or the scores are
equal and `a` has the smaller (or equal) sort key.  `key` extracts the
internal index of a candidate and `score` its similarity score. -/
def byScoreThenKey (key : α → Nat) (score : α → ℚ) (a b : α) : Prop :=
  score b < score a ∨ (score a = score b ∧ key a ≤ key b)

instance (key : α → Nat) (score : α → ℚ) :
    DecidableRel (byScoreThenKey key score) := fun a b => by
  unfold byScoreThenKey; infer_instance

instance (key : α → Nat) (score : α → ℚ) :
    IsTotal α (byScoreThenKey key score) where
  total a b := by
    rcases lt_trichotomy (score a) (score b) with h | h | h
    · exact Or.inr (Or.inl h)
    · rcases Nat.le_total (key a) (key b) with h1 | h1
      · exact Or.inl (Or.inr ⟨h, h1⟩)
      · exact Or.inr (Or.inr ⟨h.symm, h1⟩)
    · exact Or.inl (Or.inl h)

instance (key : α → Nat) (score : α → ℚ) :
    IsTrans α (byScoreThenKey key score) where
  trans a b c hab hbc := by
    rcases hab with h | ⟨he, hi⟩
    · rcases hbc with h2 | ⟨he2, _⟩
      · exact Or.inl (h2.trans h)
      · exact Or.inl (he2 ▸ h)
    · rcases hbc with h2 | ⟨he2, hi2⟩
      · exact Or.inl (he ▸ h2)
      · exact Or.inr ⟨he.trans he2, hi.trans hi2⟩

/-- The ranking relation on `(internal index, score)` candidate pairs. -/
abbrev rankLE : Nat × ℚ → Nat × ℚ → Prop :=
  byScoreThenKey Prod.fst Prod.snd

/-- `dict.get(k, d)` on the Python `item_mapping` dictionary, embedded as an
association list from internal keys to real movie ids. -/
def dictGet (m : List (Int × Int)) (k : Int) (d : Int) : Int :=
  match m.find? (fun p => p.1 == k) with
  | some p => p.2
  | none => d

/-- State of `FAISSIndex` (`backend/faiss_index.py`): the
`item_mapping` dictionary (internal key to real movie id) and the flat
index contents, `none` before `create_index` is called (searching then
raises, embedded as a `none` result).  The unused `reverse_item_mapping`
field is not modelled. -/
structure FAISSIndex where
  item_mapping : List (Int × Int)
  index : Option (List Vec)

/-- `FAISSIndex.create_index` (`faiss_index.py`, lines 22-52), flat branch
as used by `api.py`: it overwrites `self.item_mapping` and installs a fresh
flat index holding exactly the supplied embeddings.  There is no emptiness
check: an empty embedding array yields an empty index and the previous
index and mapping of `self` are discarded. -/
def FAISSIndex.create_index (_self : FAISSIndex) (embeddings : List Vec)
    (item_mapping : List (Int × Int)) : FAISSIndex :=
  { item_mapping := item_mapping, index := some embeddings }

/-- The translation loop of `FAISSIndex.search` (`faiss_index.py`, lines
74-83) and `batch_search` (lines 102-114): each internal index `idx` with
`idx < len(item_mapping)` becomes `item_mapping.get(idx + 1, idx + 1)` and
any other index becomes the sentinel `-1`.  Indices are integers because
FAISS itself reports `-1` for padded slots. -/
def FAISSIndex.toMovieIds (m : List (Int × Int)) : List Int → List Int
  | [] => []
  | idx :: rest =>
    (if idx < (m.length : Int) then dictGet m (idx + 1) (idx + 1) else -1)
      :: FAISSIndex.toMovieIds m rest

/-- Exact search of the flat inner-product FAISS index, modelled from the
behaviour of `faiss.IndexFlatIP.search` on the stored vectors: every stored
vector is scored by dot product with the query and candidates are returned
in descending score order (ties by ascending internal index), truncated to
`k`.  This list holds the real candidates only: when fewer than `k`
vectors are stored, `faiss.IndexFlatIP.search` additionally pads its `k`
result slots with label `-1` and a float sentinel score (`-FLT_MAX`,
below every representable float score but not expressible as a bound in
ℚ), so the padded slots are not part of this list; the id translation of
the `-1` padding labels is analyzed separately through
`FAISSIndex.toMovieIds`, which receives them unchanged in the program. -/
def flatSearch (stored : List Vec) (q : Vec) (k : Nat) : List (Nat × ℚ) :=
  (List.insertionSort rankLE ((stored.map (fun v => dotQ q v)).enum)).take k

/-- `FAISSIndex.search` (`faiss_index.py`, lines 54-83): `none` when the
index was never created (the code raises `ValueError`), otherwise the pair
of translated movie ids and scores of the top-`k` candidates. -/
def FAISSIndex.search (st : FAISSIndex) (q : Vec) (k : Nat) :
    Option (List Int × List ℚ) :=
  match st.index with
  | none => none
  | some stored =>
    let ranked := flatSearch stored q k
    some (FAISSIndex.toMovieIds st.item_mapping (ranked.map (fun p => (p.1 : Int))),
          ranked.map (fun p => p.2))

/-- `FAISSIndex.batch_search` (`faiss_index.py`, lines 85-114): one FAISS
matrix search over all queries — which for the flat index scores every row
independently — followed by the same per-row translation loop as
`search`. -/
def FAISSIndex.batch_search (st : FAISSIndex) (qs : List Vec) (k : Nat) :
    Option (List (List Int × List ℚ)) :=
  match st.index with
  | none => none
  | some stored =>
    some (qs.map (fun q =>
      let ranked := flatSearch stored q k
      (FAISSIndex.toMovieIds st.item_mapping (ranked.map (fun p => (p.1 : Int))),
       ranked.map (fun p => p.2))))

/-- Payload attached to a point of the Qdrant movie collection.  Payloads
are schema-less in Qdrant; fields used by filters are optional so that a
filter can reference a field absent from a payload.  `movie_id` is always
set by the insertion path (`insert_movies` defaults it to the row index). -/
structure Payload where
  movie_id : Int
  genres : Option (List String)
  year : Option Int
  rating : Option ℚ

/-- A stored point of a Qdrant collection: caller-assigned id, embedding
vector and payload. -/
structure QPoint where
  id : Nat
  vector : Vec
  payload : Payload

/-- The optional `filters` dictionary accepted by
`QdrantService.search_similar`: genre equality, year range with optional
bounds and minimum rating. -/
structure Filters where
  genres : Option String
  year_min : Option Int
  year_max : Option Int
  rating_min : Option ℚ

/-- One Qdrant `FieldCondition` as constructed by `search_similar`. -/
inductive Condition where
  | genresMatch (value : String)
  | yearRange (gte : Option Int) (lte : Option Int)
  | ratingRange (gte : ℚ)

/-- The filter-construction code of `QdrantService.search_similar`
(`qdrant_service.py`, lines 89-125): a `genres` key becomes a match
condition, `year_min` / `year_max` are merged into one range condition and
`rating_min` becomes a `gte` range condition. -/
def buildConditions (f : Filters) : List Condition :=
  (match f.genres with
   | some g => [Condition.genresMatch g]
   | none => []) ++
  (if f.year_min.isSome ∨ f.year_max.isSome then
     [Condition.yearRange f.year_min f.year_max]
   else []) ++
  (match f.rating_min with
   | some r => [Condition.ratingRange r]
   | none => [])

/-- Modelled from the spec: evaluation of one structured condition against
a payload.  The evaluation itself is performed by the external Qdrant
server (only the filter construction lives in `qdrant_service.py`), so it
is embedded following the specification's `FilterEvaluator`: genre match is
membership in the list-valued `genres` field, ranges compare the numeric
field against the present bounds, and a condition whose field is absent
from the payload evaluates to `false` rather than raising. -/
def matchesCondition (p : Payload) : Condition → Bool
  | Condition.genresMatch v =>
    match p.genres with
    | some gs => gs.contains v
    | none => false
  | Condition.yearRange gte lte =>
    match p.year with
    | some y =>
      (match gte with | some a => decide (a ≤ y) | none => true) &&
      (match lte with | some b => decide (y ≤ b) | none => true)
    | none => false
  | Condition.ratingRange r =>
    match p.rating with
    | some x => decide (r ≤ x)
    | none => false

/-- A payload matches a filter when it satisfies every condition built
from it (Qdrant `must` semantics, the spec's short-circuiting `And`). -/
def matchesFilter (p : Payload) (f : Filters) : Bool :=
  (buildConditions f).all (matchesCondition p)

/-- A formatted result of `search_similar` (`qdrant_service.py`, lines
136-148): the payload's `movie_id`, the payload fields copied into the
result dictionary, and the similarity score. -/
structure SearchResult where
  movie_id : Int
  payload : Payload
  score : ℚ

/-- The ranking relation on `(point, score)` pairs used to model the
external Qdrant server's search: descending score, ties by ascending
point id. -/
abbrev qRankLE : QPoint × ℚ → QPoint × ℚ → Prop :=
  byScoreThenKey (fun p => p.1.id) Prod.snd

/-- `QdrantService.search_similar` (`qdrant_service.py`, lines 76-148).
The filter is built from the `filters` dictionary (`search_filter` stays
`None` when no condition results); the search itself is executed by the
external Qdrant server and is modelled from the spec as exact retrieval:
candidates satisfying the filter, ranked by descending score with ties by
ascending id, truncated to `k`, then formatted. -/
def QdrantService.search_similar (points : List QPoint) (q : Vec) (k : Nat)
    (filters : Option Filters) : List SearchResult :=
  let filtered :=
    match filters with
    | none => points
    | some f =>
      if (buildConditions f).isEmpty then points
      else points.filter (fun pt => matchesFilter pt.payload f)
  let ranked :=
    (List.insertionSort qRankLE
      (filtered.map (fun pt => (pt, dotQ q pt.vector)))).take k
  ranked.map (fun pc => ⟨pc.1.payload.movie_id, pc.1.payload, pc.2⟩)

/-- The `user_embeddings` Qdrant collection: at most one stored embedding
vector per user id. -/
structure UserStore where
  points : Int → Option Vec

/-- `QdrantService.save_user_embedding` (`qdrant_service.py`, lines
230-275): upserts the point `(user_id, embedding)` into the
`user_embeddings` collection.  The embedding is stored exactly as supplied;
no normalization is performed on this insertion path. -/
def QdrantService.save_user_embedding (s : UserStore) (user_id : Int)
    (embedding : Vec) : UserStore :=
  { points := fun u => if u = user_id then some embedding else s.points u }

/-- Componentwise division of a vector by a scalar.  This embeds the
row-wise `embeddings / np.linalg.norm(embeddings, axis=1, keepdims=True)`
normalization of `EmbeddingExporter.extract_item_embeddings`
(`embedding_exporter.py`, line 55); the Euclidean norm is irrational in
general, so the divisor is passed as a scalar characterized by
`0 < c ∧ c * c = normSq v`. -/
def normalizeRow (c : ℚ) (v : Vec) : Vec := v.map (· / c)

/-- `EmbeddingExporter.extract_item_embeddings` (`embedding_exporter.py`,
lines 48-57): every item embedding row is divided by its Euclidean norm
(supplied as the oracle `norm`) before being handed to the index insertion
paths. -/
def EmbeddingExporter.extract_item_embeddings (rows : List Vec)
    (norm : Vec → ℚ) : List Vec :=
  rows.map (fun v => normalizeRow (norm v) v)

/-- Weighted componentwise average of vectors, embedding
`np.average(embeddings_array, axis=0, weights=...)` as used by
`create_initial_user_embedding`. -/
def weightedAverage (pairs : List (Vec × ℚ)) : Vec :=
  match pairs with
  | [] => []
  | (v0, _) :: _ =>
    let total : ℚ := (pairs.map (fun p => p.2)).sum
    let wsum : Vec :=
      pairs.foldr (fun p acc => List.zipWith (· + ·) (p.1.map (p.2 * ·)) acc)
        (List.replicate v0.length 0)
    wsum.map (· / total)

/-- `create_initial_user_embedding` (`api_ml32m_vectorial.py`, lines
215-262): collects the stored vectors of the movies selected per genre,
weighting preferred genres `1.0` and others `0.3`, and returns their
weighted average — with no normalization.  `movieVec` stands for the
`qdrant_service.get_movie_by_id` vector lookup; movies without a stored
vector are skipped. -/
def create_initial_user_embedding (preferred_genres : List String)
    (movies_by_genre : List (String × List Int))
    (movieVec : Int → Option Vec) : Option Vec :=
  let pairs := movies_by_genre.flatMap (fun gp =>
    let w : ℚ := if preferred_genres.contains gp.1 then 1 else 3 / 10
    (gp.2.filterMap movieVec).map (fun v => (v, w)))
  if pairs.isEmpty then none else some (weightedAverage pairs)

/-- Failure modes of the `recommend` endpoint of
`api_ml32m_vectorial.py`: `noHistory` is the 404 raised when the user has
an empty movie sequence (line 336-340), `embeddingFailed` the 500 raised
when the embedding computation returns `None` (lines 345-349). -/
inductive RecError where
  | noHistory
  | embeddingFailed
deriving DecidableEq

/-- The `recommend` endpoint (`api_ml32m_vectorial.py`, lines 323-391):
fetch the user sequence (here passed as `user_sequence`), fail when empty,
embed it (`embed` stands for `get_user_embedding`), over-fetch `2 * k`
candidates from Qdrant, drop those already in the user's sequence, then
truncate to `k`.  The metadata enrichment step changes no ids and is not
modelled. -/
def recommend (points : List QPoint) (embed : List Int → Option Vec)
    (user_sequence : List Int) (k : Nat) (filters : Option Filters) :
    Except RecError (List SearchResult) :=
  if user_sequence.isEmpty then Except.error RecError.noHistory
  else
    match embed user_sequence with
    | none => Except.error RecError.embeddingFailed
    | some v =>
      let similar := QdrantService.search_similar points v (k * 2) filters
      Except.ok
        ((similar.filter (fun m => decide (m.movie_id ∉ user_sequence))).take k)

/-- The `recommend_fast` endpoint (`api.py`, lines 113-150): FAISS search
with the user's embedding, then one metadata lookup per returned id
(`movieInfo` stands for `qdrant_service.get_movie_by_id`), keeping exactly
the ids whose metadata exists.  The user's history is never consulted:
no seen-item filtering happens on this path. -/
def recommend_fast (st : FAISSIndex) (movieInfo : Int → Option Payload)
    (user_embedding : Vec) (k : Nat) : Option (List (Int × ℚ)) :=
  match st.search user_embedding k with
  | none => none
  | some (ids, scores) =>
    some ((ids.zip scores).filter (fun p => (movieInfo p.1).isSome))

/-- Modelled from the spec: a `CacheEntry` of the generation-based
`EmbeddingCache` (spec sections 3 and 4.4).  The source system has no such
cache — `api.py` keeps a plain dictionary it deletes from and
`database.py` uses TTL-based Redis keys — so the entry carries the
generation token the spec requires. -/
structure CacheEntry where
  vector : Vec
  generation : Nat

/-- Modelled from the spec: the generation-based `EmbeddingCache` (spec
section 4.4), absent from `src/`.  `entries` are the stored cache entries
per key and `currentGen` is the monotonic per-key generation counter
bumped on every rating update. -/
structure EmbeddingCache where
  entries : Int → Option CacheEntry
  currentGen : Int → Nat

/-- Modelled from the spec: `EmbeddingCache.get(key, current_generation)`.
A hit requires a stored entry whose generation matches both the
caller-supplied generation and the current generation counter for the key
(spec section 3: a cache hit is valid only if the entry's generation
matches the current generation counter); any mismatch is a miss and evicts
the stale entry. -/
def EmbeddingCache.get (c : EmbeddingCache) (key : Int) (g : Nat) :
    Option Vec × EmbeddingCache :=
  match c.entries key with
  | none => (none, c)
  | some e =>
    if e.generation = g ∧ g = c.currentGen key then (some e.vector, c)
    else
      (none,
       { c with entries := fun k2 => if k2 = key then none else c.entries k2 })

/-- Modelled from the spec: `EmbeddingCache.put(key, vector, generation)`
stores or overwrites the entry for `key`. -/
def EmbeddingCache.put (c : EmbeddingCache) (key : Int) (v : Vec) (g : Nat) :
    EmbeddingCache :=
  { c with entries := fun k2 => if k2 = key then some ⟨v, g⟩ else c.entries k2 }

/-- Modelled from the spec: `EmbeddingCache.bump_generation(key)`
increments the current generation counter for `key`, leaving every stored
entry untouched. -/
def EmbeddingCache.bump_generation (c : EmbeddingCache) (key : Int) :
    EmbeddingCache :=
  { c with
    currentGen := fun k2 =>
      if k2 = key then c.currentGen key + 1 else c.currentGen k2 }

/-- The storage error surfaced when the external rating store write fails
inside `MovieLensDatabase.update_user_rating` (the `except` branch logs
and re-raises). -/
inductive StoreError where
  | storeError
deriving DecidableEq

/-- One rating document of the MongoDB `ratings` collection. -/
structure RatingRec where
  userId : Int
  movieId : Int
  rating : ℚ
  timestamp : Int

/-- Combined persistent state touched by
`MovieLensDatabase.update_user_rating`: the MongoDB `ratings` collection
and the Redis `user_sequence:{user_id}` cache keys (a cached movie
sequence per user id, `none` when the key is absent). -/
structure MovieLensState where
  ratings : List RatingRec
  seq_cache : Int → Option (List Int)

/-- `MovieLensDatabase.update_user_rating` (`database.py`, lines 152-179):
inside one `try` block the rating is first written through the external
MongoDB store (`mongoWrite`, which may fail) and only then is the cached
user sequence invalidated by deleting the Redis key.  When the write
raises, the exception is re-raised and the function returns with the whole
state — in particular the cache entry for the user — untouched. -/
def MovieLensDatabase.update_user_rating (st : MovieLensState)
    (user_id : Int) (_movie_id : Int) (_rating : ℚ) (_timestamp : Int)
    (mongoWrite : List RatingRec → Option (List RatingRec)) :
    Option StoreError × MovieLensState :=
  match mongoWrite st.ratings with
  | none => (some StoreError.storeError, st)
  | some rs2 =>
    (none,
     { ratings := rs2,
       seq_cache := fun u => if u = user_id then none else st.seq_cache u })

/-- Non-increasing score order of a result list, the order required of
`search` results. -/
def scoresNonIncreasing (s : List ℚ) : Prop := s.Pairwise (fun a b => b ≤ a)

/-- Equal-score candidates appear in ascending internal-index order. -/
def tiesAscendingKey (l : List (Nat × ℚ)) : Prop :=
  l.Pairwise (fun a b => a.2 = b.2 → a.1 < b.1)

/-- Equal-score results appear in ascending (translated) id order, the
determinism tie-break claimed for `search` results. -/
def tiesAscendingIds (pairs : List (Int × ℚ)) : Prop :=
  pairs.Pairwise (fun a b => a.2 = b.2 → a.1 ≤ b.1)

lemma toMovieIds_eq_map (m : List (Int × Int)) (idxs : List Int) :
    FAISSIndex.toMovieIds m idxs =
      idxs.map (fun idx =>
        if idx < (m.length : Int) then dictGet m (idx + 1) (idx + 1) else -1) := by
  induction idxs with
  | nil => rfl
  | cons a rest ih => simp [FAISSIndex.toMovieIds, ih]

lemma length_toMovieIds (m : List (Int × Int)) (idxs : List Int) :
    (FAISSIndex.toMovieIds m idxs).length = idxs.length := by
  rw [toMovieIds_eq_map]; exact List.length_map _ _

lemma sorted_flatSearch (stored : List Vec) (q : Vec) (k : Nat) :
    (flatSearch stored q k).Sorted rankLE :=
  (List.sorted_insertionSort rankLE _).sublist (List.take_sublist _ _)

lemma length_flatSearch_le (stored : List Vec) (q : Vec) (k : Nat) :
    (flatSearch stored q k).length ≤ k := by
  simp [flatSearch]

lemma nodup_flatSearch_fst (stored : List Vec) (q : Vec) (k : Nat) :
    ((flatSearch stored q k).map Prod.fst).Nodup := by
  have hperm : List.Perm
      ((List.insertionSort rankLE ((stored.map (fun v => dotQ q v)).enum)).map Prod.fst)
      (((stored.map (fun v => dotQ q v)).enum).map Prod.fst) :=
    (List.perm_insertionSort rankLE _).map _
  have hnd : ((List.insertionSort rankLE
      ((stored.map (fun v => dotQ q v)).enum)).map Prod.fst).Nodup :=
    hperm.nodup_iff.mpr (List.nodup_enum_map_fst _)
  exact hnd.sublist ((List.take_sublist _ _).map _)

lemma flatSearch_tiesAscendingKey (stored : List Vec) (q : Vec) (k : Nat) :
    tiesAscendingKey (flatSearch stored q k) := by
  have hs : (flatSearch stored q k).Pairwise rankLE := sorted_flatSearch stored q k
  have hne : (flatSearch stored q k).Pairwise (fun a b => a.1 ≠ b.1) :=
    List.pairwise_map.mp (nodup_flatSearch_fst stored q k)
  refine (hs.and hne).imp ?_
  rintro a b ⟨hr, hne1⟩ heq
  rcases hr with h | ⟨_, hle⟩
  · exact absurd heq (by exact fun he => absurd (he ▸ h) (lt_irrefl _))
  · exact lt_of_le_of_ne hle hne1

lemma flatSearch_scores_nonIncreasing (stored : List Vec) (q : Vec) (k : Nat) :
    scoresNonIncreasing ((flatSearch stored q k).map (fun p => p.2)) := by
  refine List.pairwise_map.mpr ((sorted_flatSearch stored q k).imp ?_)
  rintro a b (h | ⟨h, _⟩)
  · exact le_of_lt h
  · exact le_of_eq h.symm

/-- C10: for every item mapping and every list of internal indices
returned by FAISS, the translation loop of `search` and `batch_search` is
total (one output id per input index, never raising) and translates an
index `idx < len(item_mapping)` to `item_mapping.get(idx + 1, idx + 1)`
(lookup of key `idx + 1`, falling back to `idx + 1` itself when the key is
absent) while every index `idx ≥ len(item_mapping)` becomes the sentinel
id `-1`, which callers can therefore observe as a returned item id. -/
theorem toMovieIds_total_spec (m : List (Int × Int)) (idxs : List Int) :
    (FAISSIndex.toMovieIds m idxs).length = idxs.length ∧
    FAISSIndex.toMovieIds m idxs =
      idxs.map (fun idx =>
        if idx < (m.length : Int) then dictGet m (idx + 1) (idx + 1) else -1) :=
  ⟨length_toMovieIds m idxs, toMovieIds_eq_map m idxs⟩

/-- C8 (amended): calling `create_index` with an empty point sequence does
not fail — there is no `EmptyCorpus` check — and it does not leave the
prior index version untouched: it overwrites the item mapping with the
supplied one and installs a fresh, empty flat index.  A subsequent search
has no real candidate to score, and FAISS pads its `k` result slots with
label `-1`; since `-1 < len(item_mapping)`, the translation loop of
`search` maps every padding label to `item_mapping.get(0, 0)`, so the
caller observes `k` fallback ids — not an error and not the prior index
contents. -/
theorem create_index_empty_installs_empty (st : FAISSIndex)
    (m : List (Int × Int)) (q : Vec) (k : Nat) :
    (st.create_index [] m).index = some [] ∧
    (st.create_index [] m).item_mapping = m ∧
    flatSearch [] q k = [] ∧
    FAISSIndex.toMovieIds m (List.replicate k (-1)) =
      List.replicate k (dictGet m 0 0) := by
  refine ⟨rfl, rfl, by simp [flatSearch], ?_⟩
  have hlt : (-1 : Int) < (m.length : Int) :=
    lt_of_lt_of_le (by norm_num) (Int.ofNat_nonneg _)
  induction k with
  | zero => rfl
  | succ n ih =>
    simp only [List.replicate_succ, FAISSIndex.toMovieIds, hlt, if_true,
      ih, neg_add_cancel]

/-- C8 is false on the code: `create_index` called on an index previously
holding one vector with an empty embedding sequence raises no
`EmptyCorpus` error — it returns a state whose index is the empty one —
and the previously built index version and item mapping are both
replaced rather than left untouched. -/
theorem create_index_empty_counterexample :
    ((FAISSIndex.mk [(1, 10)] (some [[1]])).create_index [] [(2, 20)]).index =
      some [] ∧
    ((FAISSIndex.mk [(1, 10)] (some [[1]])).create_index [] [(2, 20)]).index ≠
      (FAISSIndex.mk [(1, 10)] (some [[1]])).index ∧
    ((FAISSIndex.mk [(1, 10)] (some [[1]])).create_index [] [(2, 20)]).item_mapping ≠
      (FAISSIndex.mk [(1, 10)] (some [[1]])).item_mapping := by
  refine ⟨rfl, ?_, ?_⟩ <;> simp [FAISSIndex.create_index]

/-- C2 (amended): a `FAISSIndex.search` call on a built index returns at
most `k` ids and at most `k` scores, the scores are non-increasing, and
candidates with equal scores appear in ascending internal-index order.
(The claimed ascending order of the translated movie ids does not follow:
the `item_mapping` translation need not be monotone, see the
counterexample; ascending ids are recovered exactly when the mapping is,
like the repository's identity mapping, monotone in the internal index.) -/
theorem faiss_search_sorted_bounded (st : FAISSIndex) (stored : List Vec)
    (q : Vec) (k : Nat) (ids : List Int) (scores : List ℚ)
    (hst : st.index = some stored)
    (h : st.search q k = some (ids, scores)) :
    ids.length ≤ k ∧ scores.length ≤ k ∧ scoresNonIncreasing scores ∧
    tiesAscendingKey (flatSearch stored q k) := by
  have hsearch : st.search q k =
      some (FAISSIndex.toMovieIds st.item_mapping
              ((flatSearch stored q k).map (fun p => (p.1 : Int))),
            (flatSearch stored q k).map (fun p => p.2)) := by
    simp [FAISSIndex.search, hst]
  rw [hsearch] at h
  obtain ⟨hids, hscores⟩ := Prod.mk.injEq .. ▸ Option.some.inj h
  subst hids hscores
  refine ⟨?_, ?_, ?_, flatSearch_tiesAscendingKey stored q k⟩
  · rw [length_toMovieIds, List.length_map]
    exact length_flatSearch_le stored q k
  · rw [List.length_map]
    exact length_flatSearch_le stored q k
  · exact flatSearch_scores_nonIncreasing stored q k

/-- Witness for the amended C2 theorem at a one-point index. -/
theorem faiss_search_sorted_bounded_witness :
    ([7] : List Int).length ≤ 1 ∧ ([1] : List ℚ).length ≤ 1 ∧
    scoresNonIncreasing [1] ∧ tiesAscendingKey (flatSearch [[1]] [1] 1) :=
  faiss_search_sorted_bounded ⟨[(1, 7)], some [[1]]⟩ [[1]] [1] 1 [7] [1] rfl
    (by norm_num [FAISSIndex.search, flatSearch, FAISSIndex.toMovieIds,
      dictGet, List.insertionSort, List.orderedInsert, byScoreThenKey,
      dotQ, List.enum, List.enumFrom, List.find?])

/-- C2 is false on the code as stated: with the non-monotone item mapping
sending internal key 1 to movie 5 and key 2 to movie 3, two stored
vectors tied at score 1 are returned as ids `[5, 3]` — equal scores in
descending, not ascending, id order. -/
theorem faiss_search_tie_counterexample :
    (FAISSIndex.mk [(1, 5), (2, 3)] (some [[1], [1]])).search [1] 2 =
      some ([5, 3], [1, 1]) ∧
    ¬ tiesAscendingIds [((5 : Int), (1 : ℚ)), (3, 1)] := by
  constructor
  · norm_num [FAISSIndex.search, flatSearch, FAISSIndex.toMovieIds, dictGet,
      List.insertionSort, List.orderedInsert, byScoreThenKey, dotQ,
      List.enum, List.enumFrom, List.find?]
    decide
  · norm_num [tiesAscendingIds, List.pairwise_cons]

/-- C7: each entry of a `batch_search` result is aligned with the query
list and equals the result of a lone `search` with the corresponding
query on the same index state. -/
theorem batch_search_eq_search (st : FAISSIndex) (qs : List Vec) (k : Nat)
    (rs : List (List Int × List ℚ)) (h : st.batch_search qs k = some rs) :
    rs.length = qs.length ∧
    ∀ (i : Nat) (hq : i < qs.length) (hr : i < rs.length),
      st.search (qs.get ⟨i, hq⟩) k = some (rs.get ⟨i, hr⟩) := by
  cases hst : st.index with
  | none => simp [FAISSIndex.batch_search, hst] at h
  | some stored =>
    have hrs : rs = qs.map (fun q =>
        (FAISSIndex.toMovieIds st.item_mapping
           ((flatSearch stored q k).map (fun p => (p.1 : Int))),
         (flatSearch stored q k).map (fun p => p.2))) := by
      simp only [FAISSIndex.batch_search, hst, Option.some.injEq] at h
      exact h.symm
    subst hrs
    refine ⟨List.length_map _ _, ?_⟩
    intro i hq hr
    simp [FAISSIndex.search, hst, List.get_eq_getElem, List.getElem_map]

/-- Witness for the C7 theorem at a one-point index and one query. -/
theorem batch_search_eq_search_witness :
    (FAISSIndex.mk [(1, 7)] (some [[1]])).search [1] 1 = some ([7], [1]) :=
  (batch_search_eq_search (FAISSIndex.mk [(1, 7)] (some [[1]])) [[1]] 1
      [([7], [1])]
      (by norm_num [FAISSIndex.batch_search, flatSearch,
        FAISSIndex.toMovieIds, dictGet, List.insertionSort,
        List.orderedInsert, byScoreThenKey, dotQ, List.enum,
        List.enumFrom, List.find?])).2
    0 (by norm_num) (by norm_num)

/-- C6: the `recommend` endpoint fails with the no-history error exactly
when the user's movie sequence is empty; with a non-empty sequence this
error branch is never taken (later failures surface as different
errors). -/
theorem recommend_noHistory_iff (points : List QPoint)
    (embed : List Int → Option Vec) (seq : List Int) (k : Nat)
    (f : Option Filters) :
    recommend points embed seq k f = Except.error RecError.noHistory ↔
      seq = [] := by
  cases hse : seq.isEmpty with
  | true =>
    have hnil : seq = [] := by simpa using hse
    simp [recommend, hse, hnil]
  | false =>
    have hne : seq ≠ [] := by simpa using hse
    cases hemb : embed seq <;> simp [recommend, hse, hemb, hne]

/-- C1 (amended): the vectorial `recommend` endpoint of
`api_ml32m_vectorial.py` never returns an item id present in the user's
sequence: candidates whose id occurs in the sequence are removed after the
Qdrant search and before truncation to `k`.  (The claim does not hold for
the `recommend_fast` path of `api.py`, see the counterexample.) -/
theorem recommend_excludes_history (points : List QPoint)
    (embed : List Int → Option Vec) (seq : List Int) (k : Nat)
    (f : Option Filters) (res : List SearchResult)
    (h : recommend points embed seq k f = Except.ok res) :
    ∀ r ∈ res, r.movie_id ∉ seq := by
  intro r hr
  cases hse : seq.isEmpty with
  | true => simp [recommend, hse] at h
  | false =>
    cases hemb : embed seq with
    | none => simp [recommend, hse, hemb] at h
    | some v =>
      have hres : res =
          ((QdrantService.search_similar points v (k * 2) f).filter
            (fun m => decide (m.movie_id ∉ seq))).take k := by
        simp only [recommend, hse, Bool.false_eq_true, if_false, hemb,
          Except.ok.injEq] at h
        exact h.symm
      subst hres
      exact of_decide_eq_true (List.mem_filter.mp (List.take_subset _ _ hr)).2

/-- Witness for the amended C1 theorem: one stored movie 100, user
sequence `[5]`; the returned id 100 is not in the sequence. -/
theorem recommend_excludes_history_witness :
    recommend [⟨1, [1], ⟨100, some ["Drama"], some 2000, some 4⟩⟩]
        (fun _ => some [1]) [5] 1 none =
      Except.ok [⟨100, ⟨100, some ["Drama"], some 2000, some 4⟩, 1⟩] ∧
    (100 : Int) ∉ ([5] : List Int) := by
  have hok : recommend [⟨1, [1], ⟨100, some ["Drama"], some 2000, some 4⟩⟩]
      (fun _ => some [1]) [5] 1 none =
      Except.ok [⟨100, ⟨100, some ["Drama"], some 2000, some 4⟩, 1⟩] := by
    norm_num [recommend, QdrantService.search_similar, List.insertionSort,
      List.orderedInsert, byScoreThenKey, dotQ, List.filter]
  exact ⟨hok,
    recommend_excludes_history _ _ _ _ _ _ hok
      ⟨100, ⟨100, some ["Drama"], some 2000, some 4⟩, 1⟩ (by simp)⟩

/-- C1 is false on the code for the `recommend_fast` path of `api.py`
(cited by the claim): it performs no seen-item filtering, so a user whose
history is `[7]` (with embedding `[1]`) is recommended movie 7 — an id
present in the history — back. -/
theorem recommend_fast_returns_seen :
    recommend_fast (FAISSIndex.mk [(1, 7)] (some [[1]]))
        (fun _ => some ⟨7, none, none, none⟩) [1] 1 = some [(7, 1)] ∧
    ¬ ((7 : Int) ∉ ([7] : List Int)) := by
  constructor
  · norm_num [recommend_fast, FAISSIndex.search, flatSearch,
      FAISSIndex.toMovieIds, dictGet, List.insertionSort,
      List.orderedInsert, byScoreThenKey, dotQ, List.enum, List.enumFrom,
      List.find?, List.filter, List.zip, List.zipWith]
  · simp

/-- C5: filtered search is sound.  Every result of a filtered
`search_similar` satisfies the filter evaluated against its payload; a
condition whose field is absent from a payload evaluates to `false`
rather than raising; and when fewer than `k` stored points satisfy the
filter, exactly the matching points are returned — the result length is
`min k` (number of matching points), never padded with non-matching
ones. -/
theorem search_similar_filter_sound :
    (∀ (points : List QPoint) (q : Vec) (k : Nat) (f : Filters)
       (r : SearchResult),
       r ∈ QdrantService.search_similar points q k (some f) →
       matchesFilter r.payload f = true) ∧
    (∀ p : Payload,
       (p.genres = none →
         ∀ g, matchesCondition p (Condition.genresMatch g) = false) ∧
       (p.year = none →
         ∀ a b, matchesCondition p (Condition.yearRange a b) = false) ∧
       (p.rating = none →
         ∀ x, matchesCondition p (Condition.ratingRange x) = false)) ∧
    (∀ (points : List QPoint) (q : Vec) (k : Nat) (f : Filters),
       (QdrantService.search_similar points q k (some f)).length =
         min k (points.filter (fun pt => matchesFilter pt.payload f)).length) := by
  refine ⟨?_, ?_, ?_⟩
  · intro points q k f r hr
    by_cases hc : (buildConditions f).isEmpty = true
    · have hnil : buildConditions f = [] := by simpa using hc
      simp [matchesFilter, hnil]
    · simp only [QdrantService.search_similar, hc, if_false] at hr
      rcases List.mem_map.mp hr with ⟨pc, hpc, rfl⟩
      have hpc2 := (List.mem_insertionSort _).mp (List.take_subset _ _ hpc)
      rcases List.mem_map.mp hpc2 with ⟨pt, hpt, rfl⟩
      exact (List.mem_filter.mp hpt).2
  · intro p
    refine ⟨?_, ?_, ?_⟩
    · intro h g; simp [matchesCondition, h]
    · intro h a b; simp [matchesCondition, h]
    · intro h x; simp [matchesCondition, h]
  · intro points q k f
    by_cases hc : (buildConditions f).isEmpty = true
    · have hnil : buildConditions f = [] := by simpa using hc
      have hall : points.filter (fun pt => matchesFilter pt.payload f) = points :=
        List.filter_eq_self.mpr (fun a _ => by simp [matchesFilter, hnil])
      simp [QdrantService.search_similar, hc, hall, List.length_take,
        List.length_insertionSort, List.length_map]
    · simp [QdrantService.search_similar, hc, List.length_take,
        List.length_insertionSort, List.length_map]

/-- Witness for the C5 theorem: a one-point collection queried with a
genre filter its payload satisfies, and a payload with no `genres` field
evaluated against a genre condition. -/
theorem search_similar_filter_sound_witness :
    matchesFilter ⟨100, some ["Drama"], some 2000, some 4⟩
      ⟨some "Drama", none, none, none⟩ = true ∧
    matchesCondition ⟨1, none, none, none⟩
      (Condition.genresMatch "Drama") = false := by
  constructor
  · exact search_similar_filter_sound.1
      [⟨1, [1], ⟨100, some ["Drama"], some 2000, some 4⟩⟩] [1] 1
      ⟨some "Drama", none, none, none⟩
      ⟨100, ⟨100, some ["Drama"], some 2000, some 4⟩, 1⟩
      (by norm_num [QdrantService.search_similar, buildConditions,
        matchesFilter, matchesCondition, List.insertionSort,
        List.orderedInsert, byScoreThenKey, dotQ, List.filter,
        List.contains])
  · exact (search_similar_filter_sound.2.1 ⟨1, none, none, none⟩).1 rfl "Drama"

/-- C3 (spec-modelled): after the generation for a key is bumped, a cache
get supplied with any stale (smaller) generation is a miss — it returns
`none` — even though the stored entry for the key is unchanged by the
bump. -/
theorem cache_get_stale_generation (c : EmbeddingCache) (key : Int)
    (gOld : Nat) (h : gOld < (c.bump_generation key).currentGen key) :
    ((c.bump_generation key).get key gOld).1 = none ∧
    (c.bump_generation key).entries key = c.entries key := by
  refine ⟨?_, rfl⟩
  unfold EmbeddingCache.get
  cases hek : (c.bump_generation key).entries key with
  | none => rfl
  | some e =>
    have hne : ¬ (e.generation = gOld ∧
        gOld = (c.bump_generation key).currentGen key) := by
      rintro ⟨_, h2⟩
      exact absurd (h2 ▸ h) (lt_irrefl _)
    simp [hek, hne]

/-- Witness for the C3 theorem: an entry stored at generation 0; after one
bump a get with the stale generation 0 misses while the entry is
unchanged. -/
theorem cache_get_stale_generation_witness :
    (((EmbeddingCache.mk (fun _ => some ⟨[1], 0⟩) (fun _ => 0)).bump_generation
        1).get 1 0).1 = none ∧
    ((EmbeddingCache.mk (fun _ => some ⟨[1], 0⟩) (fun _ => 0)).bump_generation
        1).entries 1 =
      (EmbeddingCache.mk (fun _ => some ⟨[1], 0⟩) (fun _ => 0)).entries 1 :=
  cache_get_stale_generation (EmbeddingCache.mk (fun _ => some ⟨[1], 0⟩)
    (fun _ => 0)) 1 0 (by simp [EmbeddingCache.bump_generation])

/-- C9: when the external MongoDB rating write inside
`update_user_rating` fails, the call surfaces the storage error and the
whole state — in particular the cached user sequence for that user and
the ratings store — is left exactly as before the call; the cache
invalidation happens only on the success path, after the write. -/
theorem update_user_rating_atomic (st : MovieLensState) (uid mid : Int)
    (r : ℚ) (ts : Int) (w : List RatingRec → Option (List RatingRec)) :
    (w st.ratings = none →
      MovieLensDatabase.update_user_rating st uid mid r ts w =
        (some StoreError.storeError, st)) ∧
    (∀ rs2, w st.ratings = some rs2 →
      MovieLensDatabase.update_user_rating st uid mid r ts w =
        (none, ⟨rs2, fun u => if u = uid then none else st.seq_cache u⟩)) := by
  constructor
  · intro h
    simp [MovieLensDatabase.update_user_rating, h]
  · intro rs2 h
    simp [MovieLensDatabase.update_user_rating, h]

/-- Witness for the C9 theorem: a failing write leaves the concrete state
(with a cached sequence for user 7) untouched. -/
theorem update_user_rating_atomic_witness :
    MovieLensDatabase.update_user_rating
        (MovieLensState.mk [] (fun _ => some [3])) 7 3 (9 / 2) 0
        (fun _ => none) =
      (some StoreError.storeError, MovieLensState.mk [] (fun _ => some [3])) :=
  (update_user_rating_atomic (MovieLensState.mk [] (fun _ => some [3])) 7 3
    (9 / 2) 0 (fun _ => none)).1 rfl

lemma normSq_cons (a : ℚ) (v : Vec) :
    normSq (a :: v) = a * a + normSq v := by
  simp [normSq, dotQ]

lemma normSq_map_div (v : Vec) (c : ℚ) (hc : c ≠ 0) :
    normSq (v.map (· / c)) = normSq v / (c * c) := by
  induction v with
  | nil => simp [normSq, dotQ]
  | cons a tl ih =>
    rw [List.map_cons, normSq_cons, normSq_cons, ih]
    field_simp

/-- C4 (amended): on the item insertion path the exporter L2-normalizes
every row before it reaches a store, so all exported item vectors have
unit norm (stated with the row norm supplied as a scalar `norm v`
characterized by `norm v * norm v = normSq v`, since the Euclidean norm
is irrational in general); on the user insertion path, however,
`save_user_embedding` stores the supplied vector exactly as given, with
no normalization. -/
theorem item_rows_normalized_user_rows_raw :
    (∀ (rows : List Vec) (norm : Vec → ℚ),
       (∀ v ∈ rows, 0 < norm v ∧ norm v * norm v = normSq v) →
       ∀ u ∈ EmbeddingExporter.extract_item_embeddings rows norm,
         normSq u = 1) ∧
    (∀ (s : UserStore) (uid : Int) (emb : Vec),
       (QdrantService.save_user_embedding s uid emb).points uid = some emb) := by
  constructor
  · intro rows norm hn u hu
    rcases List.mem_map.mp hu with ⟨v, hv, rfl⟩
    obtain ⟨hpos, hsq⟩ := hn v hv
    have hne : norm v ≠ 0 := ne_of_gt hpos
    rw [normalizeRow, normSq_map_div v _ hne, ← hsq,
      div_self (mul_ne_zero hne hne)]
  · intro s uid emb
    simp [QdrantService.save_user_embedding]

/-- Witness for the amended C4 theorem: row `[3, 4]` with norm 5
normalizes to a unit vector, and a raw non-unit user embedding is stored
verbatim. -/
theorem item_rows_normalized_user_rows_raw_witness :
    normSq (normalizeRow 5 [3, 4]) = 1 ∧
    (QdrantService.save_user_embedding (UserStore.mk (fun _ => none)) 1
        [1 / 2, 1 / 2]).points 1 = some [1 / 2, 1 / 2] := by
  constructor
  · exact item_rows_normalized_user_rows_raw.1 [[3, 4]] (fun _ => 5)
      (by
        intro v hv
        simp only [List.mem_singleton] at hv
        subst hv
        norm_num [normSq, dotQ])
      (normalizeRow 5 [3, 4])
      (by simp [EmbeddingExporter.extract_item_embeddings])
  · exact item_rows_normalized_user_rows_raw.2
      (UserStore.mk (fun _ => none)) 1 [1 / 2, 1 / 2]

/-- C4 is false on the code as stated: the `set_preferences` path builds
an initial user embedding as a weighted average of the unit vectors
`[1, 0]` and `[0, 1]` — the non-unit vector `[1/2, 1/2]` — and
`save_user_embedding` inserts it into the user collection unchanged, so a
stored vector used for cosine ranking does not have unit L2 norm. -/
theorem save_user_embedding_counterexample :
    create_initial_user_embedding ["A"] [("A", [1, 2])]
        (fun i => if i = 1 then some [1, 0] else
          if i = 2 then some [0, 1] else none) = some [1 / 2, 1 / 2] ∧
    (QdrantService.save_user_embedding (UserStore.mk (fun _ => none)) 42
        [1 / 2, 1 / 2]).points 42 = some [1 / 2, 1 / 2] ∧
    normSq [(1 : ℚ) / 2, 1 / 2] ≠ 1 ∧
    normSq [(1 : ℚ), 0] = 1 ∧ normSq [(0 : ℚ), 1] = 1 := by
  refine ⟨?_, ?_, ?_, ?_, ?_⟩
  · norm_num [create_initial_user_embedding, weightedAverage, List.flatMap,
      List.filterMap, List.replicate, List.contains, List.elem,
      List.foldr, List.zipWith]
  · simp [QdrantService.save_user_embedding]
  · norm_num [normSq, dotQ]
  · norm_num [normSq, dotQ]
  · norm_num [normSq, dotQ]
